import Mathlib

/-!
Verification of the dimension planner and encoder loop of the
LinkedIn image processor (`src/app.py`).

Modelling decisions:
* Python `float` arithmetic on aspect ratios is modelled by exact `ℚ`
  arithmetic; Python's `round` (round-half-to-even on non-negative
  rationals, as used here) is modelled by `pyRound`.
* Python integers are modelled by `ℤ` in the planner; the encoder loop
  works on `ℕ` dimensions (all widths/heights there are non-negative).
* `int(x * 0.9)` on a non-negative integer `x` truncates toward zero,
  i.e. it is `⌊9x/10⌋`, modelled by natural division `x * 9 / 10`.
* A Python `ZeroDivisionError` is modelled by an `Option`-returning
  variant of the planner that guards every division.
* The unbounded `while True:` loop of `process_image` is modelled by a
  fuel-indexed step function; termination is the statement that a
  computable fuel bound always suffices.
-/

/-- Python's `round` on a rational: nearest integer, ties to even. -/
def pyRound (q : ℚ) : ℤ :=
  if q - Int.floor q < 1/2 then Int.floor q
  else if 1/2 < q - Int.floor q then Int.floor q + 1
  else if 2 ∣ Int.floor q then Int.floor q else Int.floor q + 1

lemma pyRound_eq_floor_or_succ (q : ℚ) :
    pyRound q = Int.floor q ∨ pyRound q = Int.floor q + 1 := by
  unfold pyRound
  split
  · exact Or.inl rfl
  · split
    · exact Or.inr rfl
    · split
      · exact Or.inl rfl
      · exact Or.inr rfl

lemma pyRound_cast_le (q : ℚ) : (pyRound q : ℚ) ≤ q + 1/2 := by
  have hfl : (Int.floor q : ℚ) ≤ q := Int.floor_le q
  unfold pyRound
  split_ifs with h1 h2 h3
  · linarith
  · push_cast
    linarith
  · linarith
  · push_neg at h1 h2
    have heq : q - (Int.floor q : ℚ) = 1/2 := le_antisymm h2 h1
    push_cast
    linarith

lemma le_pyRound_cast (q : ℚ) : q - 1/2 ≤ (pyRound q : ℚ) := by
  have hfl : q < (Int.floor q : ℚ) + 1 := Int.lt_floor_add_one q
  unfold pyRound
  split_ifs with h1 h2 h3
  · linarith
  · push_cast
    linarith
  · push_neg at h1
    linarith
  · push_neg at h1
    push_cast
    linarith

lemma pyRound_intCast (n : ℤ) : pyRound (n : ℚ) = n := by
  unfold pyRound
  rw [Int.floor_intCast]
  norm_num

/-- Lower bound: `n ≤ pyRound q` whenever `q` is strictly above `n - 1/2`. -/
lemma le_pyRound_of_lt (n : ℤ) (q : ℚ) (h : (n : ℚ) - 1/2 < q) : n ≤ pyRound q := by
  have h1 : q - 1/2 ≤ (pyRound q : ℚ) := le_pyRound_cast q
  have h2 : (n : ℚ) - 1 < (pyRound q : ℚ) := by linarith
  have h3 : n - 1 < pyRound q := by exact_mod_cast h2
  omega

/-- Upper bound: `pyRound q ≤ n` whenever `q` is strictly below `n + 1/2`. -/
lemma pyRound_le_of_lt (n : ℤ) (q : ℚ) (h : q < (n : ℚ) + 1/2) : pyRound q ≤ n := by
  have h1 : (pyRound q : ℚ) ≤ q + 1/2 := pyRound_cast_le q
  have h2 : (pyRound q : ℚ) < (n : ℚ) + 1 := by linarith
  have h3 : pyRound q < n + 1 := by exact_mod_cast h2
  omega

/-!
## Dimension planner

`calculate_container_fit_dimensions` mirrors `src/app.py` lines 44-86.
Python's float division `original_width / original_height` is modelled
exactly on `ℚ`; `int(round(x))` is `pyRound x` (Python `round` with no
`ndigits` already returns an `int`, so the outer `int()` is the identity).
-/

def calculate_container_fit_dimensions
    (original_width original_height container_width container_height min_width : ℤ) :
    ℤ × ℤ :=
  let aspect_ratio : ℚ := (original_width : ℚ) / (original_height : ℚ)
  -- hard minimum width upscale branch
  if original_width < min_width then
    (min_width, pyRound ((min_width : ℚ) / aspect_ratio))
  else
    -- container-fit branch
    let width_constrained_width := container_width
    let width_constrained_height := pyRound ((container_width : ℚ) / aspect_ratio)
    let height_constrained_width := pyRound ((container_height : ℚ) * aspect_ratio)
    let height_constrained_height := container_height
    let chosen :=
      if width_constrained_height ≤ container_height then
        (width_constrained_width, width_constrained_height)
      else
        (height_constrained_width, height_constrained_height)
    -- ensure minimum width is respected in container path (rare edge)
    if chosen.1 < min_width then
      (min_width, pyRound ((min_width : ℚ) / aspect_ratio))
    else
      chosen

/-- Fallible variant of the planner: every Python division is guarded, a
zero denominator yielding `none` in place of a `ZeroDivisionError`.  The
divisions in `src/app.py` lines 59-86 are `original_width /
original_height` (fails when the height is zero) and the three divisions
by `aspect_ratio` (fail when the aspect ratio is zero, i.e. when the
original width is zero with a nonzero height). -/
def calculate_container_fit_dimensions?
    (original_width original_height container_width container_height min_width : ℤ) :
    Option (ℤ × ℤ) :=
  if (original_height : ℚ) = 0 then none
  else
    let aspect_ratio : ℚ := (original_width : ℚ) / (original_height : ℚ)
    if original_width < min_width then
      if aspect_ratio = 0 then none
      else some (min_width, pyRound ((min_width : ℚ) / aspect_ratio))
    else
      if aspect_ratio = 0 then none
      else
        let width_constrained_width := container_width
        let width_constrained_height := pyRound ((container_width : ℚ) / aspect_ratio)
        let height_constrained_width := pyRound ((container_height : ℚ) * aspect_ratio)
        let height_constrained_height := container_height
        let chosen :=
          if width_constrained_height ≤ container_height then
            (width_constrained_width, width_constrained_height)
          else
            (height_constrained_width, height_constrained_height)
        if chosen.1 < min_width then
          some (min_width, pyRound ((min_width : ℚ) / aspect_ratio))
        else
          some chosen

/-- Fit-type labels used for observability (spelled `"min-width-upscale"`,
`"width-constrained"`, `"height-constrained"` in the code). -/
inductive FitType where
  | upscale
  | width_constrained
  | height_constrained
deriving DecidableEq

/-- Fit-type computation of `process_linkedin_image`, `src/app.py` lines
386-391: the label is derived from the exact aspect-ratio comparison, not
from the branch the planner actually took. -/
def fit_type (original_width original_height container_width container_height min_width : ℤ) :
    FitType :=
  if original_width < min_width then .upscale
  else if (container_width : ℚ) / (container_height : ℚ) <
      (original_width : ℚ) / (original_height : ℚ) then .width_constrained
  else .height_constrained

/-- Branch-level characterisation of the planner, used by all the planner
proofs below. -/
lemma plan_spec (ow oh cw ch mw : ℤ) :
    calculate_container_fit_dimensions ow oh cw ch mw =
      if ow < mw then
        (mw, pyRound ((mw : ℚ) / ((ow : ℚ) / (oh : ℚ))))
      else if pyRound ((cw : ℚ) / ((ow : ℚ) / (oh : ℚ))) ≤ ch then
        (if cw < mw then (mw, pyRound ((mw : ℚ) / ((ow : ℚ) / (oh : ℚ))))
         else (cw, pyRound ((cw : ℚ) / ((ow : ℚ) / (oh : ℚ)))))
      else
        (if pyRound ((ch : ℚ) * ((ow : ℚ) / (oh : ℚ))) < mw then
          (mw, pyRound ((mw : ℚ) / ((ow : ℚ) / (oh : ℚ))))
         else (pyRound ((ch : ℚ) * ((ow : ℚ) / (oh : ℚ))), ch)) := by
  unfold calculate_container_fit_dimensions
  split
  · rfl
  · dsimp only
    split <;> rfl

/-!
## Encoder loop

Model of the `while True:` loop of `process_image`, `src/app.py` lines
127-165.  The JPEG encoder is an oracle `sizes : ℕ → ℕ` giving the byte
length reported by the encode performed at each iteration (iterations
counted from 0); the pixel buffer itself is irrelevant to the control
flow, which only inspects the reported size.  `int(new_width * 0.9)` on a
non-negative int truncates toward zero, modelled `new_width * 9 / 10`.
-/

/-- The size policy the loop reads (module constants `MAX_FILE_SIZE` and
`MIN_WIDTH` in `src/app.py`). -/
structure EncPolicy where
  max_file_size : ℕ
  min_width : ℕ

/-- Loop state at the top of an iteration: the tracked dimensions
(`new_width`, `new_height`), the current JPEG `quality`, and the number
of previously completed encodes (`iteration`). -/
structure EncState where
  new_width : ℕ
  new_height : ℕ
  quality : ℤ
  iteration : ℕ
deriving DecidableEq

/-- What the loop returns: the length of the bytes of the final encode,
the final dimensions, and the value of the `quality` variable at exit. -/
structure EncodeResult where
  bytes_len : ℕ
  width : ℕ
  height : ℕ
  quality : ℤ
deriving DecidableEq

inductive EncStepResult where
  | done : EncodeResult → EncStepResult
  | next : EncState → EncStepResult
deriving DecidableEq

/-- One iteration of the loop body (`src/app.py` lines 129-165):
encode and measure, break on `size_now <= MAX_FILE_SIZE or quality <= 50`,
otherwise decrement quality by 10; if the decremented quality is at the
floor and the size is still over budget, downscale by 10% unless that
would drop below `MIN_WIDTH` (in which case break with the current,
still over-budget, encode), resetting quality to 75 after a downscale. -/
def encStep (P : EncPolicy) (sizes : ℕ → ℕ) (s : EncState) : EncStepResult :=
  let size_now := sizes s.iteration
  if size_now ≤ P.max_file_size ∨ s.quality ≤ 50 then
    .done ⟨size_now, s.new_width, s.new_height, s.quality⟩
  else
    let quality := s.quality - 10
    if quality ≤ 50 ∧ P.max_file_size < size_now then
      let scaled_w := s.new_width * 9 / 10
      let scaled_h := s.new_height * 9 / 10
      if scaled_w < P.min_width then
        .done ⟨size_now, s.new_width, s.new_height, quality⟩
      else
        .next ⟨scaled_w, scaled_h, 75, s.iteration + 1⟩
    else
      .next ⟨s.new_width, s.new_height, quality, s.iteration + 1⟩

/-- Fuel-indexed run of the loop; `none` means the fuel ran out before
the loop exited. -/
def process_image_loop (P : EncPolicy) (sizes : ℕ → ℕ) :
    ℕ → EncState → Option EncodeResult
  | 0, _ => none
  | fuel + 1, s =>
    match encStep P sizes s with
    | .done r => some r
    | .next s' => process_image_loop P sizes fuel s'

/-- Loop entry state: `quality = 85`, no encode performed yet, at the
dimensions the planner chose. -/
def initState (targetW targetH : ℕ) : EncState :=
  ⟨targetW, targetH, 85, 0⟩

/-- States the loop can visit starting from `s`. -/
inductive Reachable (P : EncPolicy) (sizes : ℕ → ℕ) : EncState → EncState → Prop
  | refl (s : EncState) : Reachable P sizes s s
  | head {s s' s'' : EncState} :
      encStep P sizes s = .next s' → Reachable P sizes s' s'' → Reachable P sizes s s''

/-- Termination measure: each `.next` step strictly decreases it. -/
def encMeasure (s : EncState) : ℕ := 100 * s.new_width + s.quality.toNat

lemma encStep_next_measure_lt (P : EncPolicy) (sizes : ℕ → ℕ) (s s' : EncState)
    (hmw : 1 ≤ P.min_width) (h : encStep P sizes s = .next s') :
    encMeasure s' < encMeasure s := by
  simp only [encStep] at h
  split at h
  · exact absurd h (by simp)
  · next hover =>
    push_neg at hover
    obtain ⟨hsz, hq⟩ := hover
    split at h
    · -- downscale branch
      split at h
      · exact absurd h (by simp)
      · next hscaled =>
        push_neg at hscaled
        have hw2 : 1 ≤ s.new_width * 9 / 10 := le_trans hmw hscaled
        have hwlt : s.new_width * 9 / 10 < s.new_width := by omega
        cases h
        unfold encMeasure
        dsimp only
        have : (75 : ℤ).toNat = 75 := rfl
        omega
    · -- plain quality decrement
      cases h
      unfold encMeasure
      dsimp only
      omega

lemma process_image_loop_isSome (P : EncPolicy) (sizes : ℕ → ℕ)
    (hmw : 1 ≤ P.min_width) :
    ∀ fuel s, encMeasure s < fuel → (process_image_loop P sizes fuel s).isSome := by
  intro fuel
  induction fuel with
  | zero => intro s h; omega
  | succ n ih =>
    intro s h
    unfold process_image_loop
    cases hstep : encStep P sizes s with
    | done r => simp
    | next s' =>
      simp only
      exact ih s' (lt_of_lt_of_le (encStep_next_measure_lt P sizes s s' hmw hstep) (by omega))

/-- Every successful run exits from a state reachable from the start
state, via `encStep` returning `.done`. -/
lemma process_image_loop_exit (P : EncPolicy) (sizes : ℕ → ℕ) :
    ∀ fuel s r, process_image_loop P sizes fuel s = some r →
      ∃ s', Reachable P sizes s s' ∧ encStep P sizes s' = .done r := by
  intro fuel
  induction fuel with
  | zero => intro s r h; simp [process_image_loop] at h
  | succ n ih =>
    intro s r h
    unfold process_image_loop at h
    cases hstep : encStep P sizes s with
    | done r' =>
      rw [hstep] at h
      simp only [Option.some.injEq] at h
      exact ⟨s, Reachable.refl s, by rw [hstep, h]⟩
    | next s' =>
      rw [hstep] at h
      simp only at h
      obtain ⟨s'', hr, hd⟩ := ih s' r h
      exact ⟨s'', Reachable.head hstep hr, hd⟩

/-- The loop-head quality values: the initial 85, the decrements 75, 65,
55, and the post-downscale reset 75. -/
def QualitySet (q : ℤ) : Prop := q = 85 ∨ q = 75 ∨ q = 65 ∨ q = 55

lemma encStep_next_quality (P : EncPolicy) (sizes : ℕ → ℕ) {s s' : EncState}
    (h : encStep P sizes s = .next s') (hq : QualitySet s.quality) :
    QualitySet s'.quality := by
  simp only [encStep] at h
  split at h
  · exact absurd h (by simp)
  · next hover =>
    push_neg at hover
    obtain ⟨hsz, hq50⟩ := hover
    split at h
    · next hfloor =>
      split at h
      · exact absurd h (by simp)
      · next hscaled =>
        cases h
        exact Or.inr (Or.inl rfl)
    · next hnot =>
      -- the size is over budget, so the floor test on the decremented
      -- quality must have failed
      have hqd : ¬ (s.quality - 10 ≤ 50) := fun hle => hnot ⟨hle, hsz⟩
      push_neg at hqd
      cases h
      show QualitySet (s.quality - 10)
      unfold QualitySet
      rcases hq with h85 | h75 | h65 | h55 <;> omega

lemma encStep_next_min_width (P : EncPolicy) (sizes : ℕ → ℕ) {s s' : EncState}
    (h : encStep P sizes s = .next s') (hw : P.min_width ≤ s.new_width) :
    P.min_width ≤ s'.new_width := by
  simp only [encStep] at h
  split at h
  · exact absurd h (by simp)
  · split at h
    · split at h
      · exact absurd h (by simp)
      · next hscaled =>
        push_neg at hscaled
        cases h
        exact hscaled
    · cases h
      exact hw

lemma reachable_quality (P : EncPolicy) (sizes : ℕ → ℕ) {s s' : EncState}
    (h : Reachable P sizes s s') (hq : QualitySet s.quality) :
    QualitySet s'.quality := by
  induction h with
  | refl s => exact hq
  | head hstep _ ih => exact ih (encStep_next_quality P sizes hstep hq)

lemma reachable_min_width (P : EncPolicy) (sizes : ℕ → ℕ) {s s' : EncState}
    (h : Reachable P sizes s s') (hw : P.min_width ≤ s.new_width) :
    P.min_width ≤ s'.new_width := by
  induction h with
  | refl s => exact hw
  | head hstep _ ih => exact ih (encStep_next_min_width P sizes hstep hw)

/-- Case analysis of an exit: any `.done` result from a state whose
quality is in the loop-head set leaves either because the size fit the
budget, or because the downscale guard fired with the size still over
budget. -/
lemma encStep_done_cases (P : EncPolicy) (sizes : ℕ → ℕ) {s : EncState} {r : EncodeResult}
    (h : encStep P sizes s = .done r)
    (hq : QualitySet s.quality) (hw : P.min_width ≤ s.new_width) :
    r.width = s.new_width ∧ r.height = s.new_height ∧ P.min_width ≤ r.width ∧
      r.bytes_len = sizes s.iteration ∧
      (r.bytes_len ≤ P.max_file_size ∨
        (P.max_file_size < r.bytes_len ∧ r.width * 9 / 10 < P.min_width)) := by
  simp only [encStep] at h
  split at h
  · next hexit =>
    cases h
    refine ⟨rfl, rfl, hw, rfl, Or.inl ?_⟩
    rcases hexit with hsz | hq50
    · exact hsz
    · rcases hq with h | h | h | h <;> omega
  · next hover =>
    push_neg at hover
    obtain ⟨hsz, hq50⟩ := hover
    split at h
    · split at h
      · next hscaled =>
        cases h
        exact ⟨rfl, rfl, hw, rfl, Or.inr ⟨hsz, hscaled⟩⟩
      · exact absurd h (by simp)
    · exact absurd h (by simp)

/-!
## Claims about the encoder loop
-/

/-- C1: for every decoded buffer (any target dimensions at least the
minimum width) and policy, and every sequence of sizes the JPEG encoder
may report, the loop returns normally (the computed fuel bound suffices,
and the loop body has no failure path), and the result satisfies the
`EncodeResult` invariant: either the byte length is within the budget,
or the exit was the best-effort one, in which case the returned width is
still at least `MIN_WIDTH`, one further downscale (`int(width*0.9)`)
would fall below `MIN_WIDTH`, and the returned bytes are the current,
still over-budget, encoding. -/
theorem C1_encoder_result_invariant (P : EncPolicy) (sizes : ℕ → ℕ)
    (targetW targetH : ℕ) (hmw : 1 ≤ P.min_width) (htw : P.min_width ≤ targetW) :
    ∃ r, process_image_loop P sizes (100 * targetW + 86) (initState targetW targetH) = some r ∧
      P.min_width ≤ r.width ∧
      (r.bytes_len ≤ P.max_file_size ∨
        (P.max_file_size < r.bytes_len ∧ r.width * 9 / 10 < P.min_width)) := by
  have hm : encMeasure (initState targetW targetH) < 100 * targetW + 86 := by
    unfold encMeasure initState
    simp
  have hsome := process_image_loop_isSome P sizes hmw (100 * targetW + 86)
    (initState targetW targetH) hm
  obtain ⟨r, hr⟩ := Option.isSome_iff_exists.mp hsome
  obtain ⟨s', hreach, hdone⟩ := process_image_loop_exit P sizes _ _ _ hr
  have hq : QualitySet s'.quality :=
    reachable_quality P sizes hreach (Or.inl rfl)
  have hw : P.min_width ≤ s'.new_width :=
    reachable_min_width P sizes hreach htw
  have hc := encStep_done_cases P sizes hdone hq hw
  exact ⟨r, hr, hc.2.2.1, hc.2.2.2.2⟩

/-- Closed instance of `C1_encoder_result_invariant`: policy
`MAX_FILE_SIZE = 2097152`, `MIN_WIDTH = 640`, target 1280x720, encoder
always reporting 3000000 bytes. -/
theorem C1_encoder_result_invariant_witness :
    ∃ r, process_image_loop ⟨2097152, 640⟩ (fun _ => 3000000) (100 * 1280 + 86)
        (initState 1280 720) = some r ∧
      640 ≤ r.width ∧
      (r.bytes_len ≤ 2097152 ∨ (2097152 < r.bytes_len ∧ r.width * 9 / 10 < 640)) :=
  C1_encoder_result_invariant ⟨2097152, 640⟩ (fun _ => 3000000) 1280 720
    (by decide) (by decide)

/-- C2: for every positive target dimensions with
`targetW ≥ minWidth ≥ 1` and every sequence of byte sizes the encoder
may report, the loop terminates: the explicit fuel bound
`100 * targetW + 86` always suffices (per size check the quality falls
by 10 toward the floor, and at the floor each downscale strictly
shrinks the width until the guard forces an exit). -/
theorem C2_encoder_loop_terminates (P : EncPolicy) (sizes : ℕ → ℕ)
    (targetW targetH : ℕ) (hmw : 1 ≤ P.min_width) (htw : P.min_width ≤ targetW)
    (hth : 1 ≤ targetH) :
    ∃ r, process_image_loop P sizes (100 * targetW + 86) (initState targetW targetH) = some r := by
  have hm : encMeasure (initState targetW targetH) < 100 * targetW + 86 := by
    unfold encMeasure initState
    simp
  exact Option.isSome_iff_exists.mp
    (process_image_loop_isSome P sizes hmw (100 * targetW + 86) (initState targetW targetH) hm)

/-- Closed instance of `C2_encoder_loop_terminates`: an encoder that
always reports a size far over any budget still terminates. -/
theorem C2_encoder_loop_terminates_witness :
    ∃ r, process_image_loop ⟨2097152, 640⟩ (fun _ => 10000000) (100 * 640 + 86)
        (initState 640 480) = some r :=
  C2_encoder_loop_terminates ⟨2097152, 640⟩ (fun _ => 10000000) 640 480
    (by decide) (by decide) (by decide)

/-- C3: in every reachable loop-head state of the encoder loop the
quality is one of 85, 75, 65, 55 — in particular it never drops below
50: the floor check each iteration (reset to 75 after a downscale, exit
otherwise) prevents it, without the variable being clamped. -/
theorem C3_quality_never_below_floor (P : EncPolicy) (sizes : ℕ → ℕ)
    (targetW targetH : ℕ) (s : EncState)
    (h : Reachable P sizes (initState targetW targetH) s) :
    50 ≤ s.quality ∧
      (s.quality = 85 ∨ s.quality = 75 ∨ s.quality = 65 ∨ s.quality = 55) := by
  have hq : QualitySet s.quality := reachable_quality P sizes h (Or.inl rfl)
  unfold QualitySet at hq
  exact ⟨by rcases hq with h | h | h | h <;> omega, hq⟩

/-- Closed instance of `C3_quality_never_below_floor` at the initial
state of a concrete run. -/
theorem C3_quality_never_below_floor_witness :
    50 ≤ (initState 1280 720).quality ∧
      ((initState 1280 720).quality = 85 ∨ (initState 1280 720).quality = 75 ∨
        (initState 1280 720).quality = 65 ∨ (initState 1280 720).quality = 55) :=
  C3_quality_never_below_floor ⟨2097152, 640⟩ (fun _ => 0) 1280 720
    (initState 1280 720) (Reachable.refl _)

/-- C9: every JPEG encode the loop performs happens at a quality in
{85, 75, 65, 55}, so the `quality <= 50` half of the first break is
never the reason the loop exits: any exit from a reachable state is
either the size-budget break or the minimum-width downscale guard. -/
theorem C9_encode_quality_schedule (P : EncPolicy) (sizes : ℕ → ℕ)
    (targetW targetH : ℕ) (s : EncState)
    (h : Reachable P sizes (initState targetW targetH) s) :
    (s.quality = 85 ∨ s.quality = 75 ∨ s.quality = 65 ∨ s.quality = 55) ∧
      ∀ r, encStep P sizes s = .done r →
        sizes s.iteration ≤ P.max_file_size ∨ s.new_width * 9 / 10 < P.min_width := by
  have hq : QualitySet s.quality := reachable_quality P sizes h (Or.inl rfl)
  refine ⟨hq, ?_⟩
  intro r hdone
  simp only [encStep] at hdone
  split at hdone
  · next hexit =>
    rcases hexit with hsz | hq50
    · exact Or.inl hsz
    · rcases hq with h | h | h | h <;> omega
  · split at hdone
    · split at hdone
      · next hscaled => exact Or.inr hscaled
      · exact absurd hdone (by simp)
    · exact absurd hdone (by simp)

/-- Closed instance of `C9_encode_quality_schedule` at the initial state
of a concrete run. -/
theorem C9_encode_quality_schedule_witness :
    ((initState 800 600).quality = 85 ∨ (initState 800 600).quality = 75 ∨
      (initState 800 600).quality = 65 ∨ (initState 800 600).quality = 55) ∧
      ∀ r, encStep ⟨2097152, 640⟩ (fun _ => 0) (initState 800 600) = .done r →
        (fun _ : ℕ => (0:ℕ)) (initState 800 600).iteration ≤ 2097152 ∨
          (initState 800 600).new_width * 9 / 10 < 640 :=
  C9_encode_quality_schedule ⟨2097152, 640⟩ (fun _ => 0) 800 600
    (initState 800 600) (Reachable.refl _)

/-!
## Claims about the dimension planner
-/

/-- C4: for all `0 < origW < minWidth` (positive height), the planner
returns exactly `(minWidth, round(minWidth*origH/origW))` and the fit
type is the upscale label, for EVERY container box — the upscale branch
ignores the container entirely and its result is never clamped back
down. -/
theorem C4_upscale_ignores_container (ow oh mw : ℤ)
    (h1 : 0 < ow) (h2 : 0 < oh) (h3 : ow < mw) :
    ∀ cw ch : ℤ,
      calculate_container_fit_dimensions ow oh cw ch mw =
        (mw, pyRound ((mw : ℚ) * (oh : ℚ) / (ow : ℚ))) ∧
      fit_type ow oh cw ch mw = .upscale := by
  intro cw ch
  constructor
  · rw [plan_spec, if_pos h3, div_div_eq_mul_div]
  · unfold fit_type
    rw [if_pos h3]

/-- Closed instance of `C4_upscale_ignores_container`: 300x600 with
`minWidth = 640` upscales to 640x1280 (beyond the 1280x720 container,
and not clamped). -/
theorem C4_upscale_ignores_container_witness :
    calculate_container_fit_dimensions 300 600 1280 720 640 = (640, 1280) ∧
      fit_type 300 600 1280 720 640 = FitType.upscale := by
  have h := C4_upscale_ignores_container 300 600 640
    (by decide) (by decide) (by decide) 1280 720
  refine ⟨?_, h.2⟩
  rw [h.1]
  norm_num [pyRound]

/-- C8: under the documented preconditions (positive original
dimensions, `minWidth > 0`, `containerWidth ≥ minWidth`,
`containerHeight > 0`) the planner hits no failure branch: the guarded
variant returns `some` of the total planner's result (no division by
zero is reachable, since the height and the aspect ratio are both
nonzero). -/
theorem C8_planner_no_error (ow oh cw ch mw : ℤ)
    (h1 : 0 < ow) (h2 : 0 < oh) (h3 : 0 < mw) (h4 : mw ≤ cw) (h5 : 0 < ch) :
    calculate_container_fit_dimensions? ow oh cw ch mw =
      some (calculate_container_fit_dimensions ow oh cw ch mw) := by
  have hoh : ((oh : ℚ)) ≠ 0 := by
    have : (0 : ℚ) < (oh : ℚ) := by exact_mod_cast h2
    exact ne_of_gt this
  have how : ((ow : ℚ)) ≠ 0 := by
    have : (0 : ℚ) < (ow : ℚ) := by exact_mod_cast h1
    exact ne_of_gt this
  have ha : ((ow : ℚ) / (oh : ℚ)) ≠ 0 := div_ne_zero how hoh
  unfold calculate_container_fit_dimensions? calculate_container_fit_dimensions
  rw [if_neg hoh]
  simp only [if_neg ha]
  split
  · rfl
  · split <;> split <;> rfl

/-- Closed instance of `C8_planner_no_error` at 1000x2000 with the
default policy. -/
theorem C8_planner_no_error_witness :
    calculate_container_fit_dimensions? 1000 2000 1280 720 640 =
      some (calculate_container_fit_dimensions 1000 2000 1280 720 640) :=
  C8_planner_no_error 1000 2000 1280 720 640
    (by decide) (by decide) (by decide) (by decide) (by decide)

/-- C10: for positive inputs and any policy with
`minWidth ≤ containerWidth` (and a positive container box), the planner
never returns a width above `containerWidth`: the upscale branch and the
post-check return `minWidth ≤ containerWidth`, the width-constrained
branch returns `containerWidth`, and when the height-constrained branch
is selected its candidate `round(containerHeight*aspect)` is at most
`containerWidth`. -/
theorem C10_width_never_exceeds_container (ow oh cw ch mw : ℤ)
    (h1 : 0 < ow) (h2 : 0 < oh) (h3 : 0 < cw) (h4 : 0 < ch) (h5 : mw ≤ cw) :
    (calculate_container_fit_dimensions ow oh cw ch mw).1 ≤ cw := by
  have ha : (0 : ℚ) < (ow : ℚ) / (oh : ℚ) :=
    div_pos (by exact_mod_cast h1) (by exact_mod_cast h2)
  rw [plan_spec]
  split
  · exact h5
  · split
    · split
      · exact h5
      · exact le_refl cw
    · next hbr =>
      split
      · exact h5
      · -- height-constrained branch selected: round(cw/aspect) ≥ ch+1
        -- forces aspect ≤ cw/(ch+1/2), hence round(ch*aspect) < cw + 1/2
        push_neg at hbr
        have hbr' : ch + 1 ≤ pyRound ((cw : ℚ) / ((ow : ℚ) / (oh : ℚ))) := hbr
        have hcast : ((ch : ℚ)) + 1 ≤ (pyRound ((cw : ℚ) / ((ow : ℚ) / (oh : ℚ))) : ℚ) := by
          exact_mod_cast hbr'
        have hub := pyRound_cast_le ((cw : ℚ) / ((ow : ℚ) / (oh : ℚ)))
        have hdiv : (ch : ℚ) + 1/2 ≤ (cw : ℚ) / ((ow : ℚ) / (oh : ℚ)) := by linarith
        have hmul : ((ch : ℚ) + 1/2) * ((ow : ℚ) / (oh : ℚ)) ≤ (cw : ℚ) :=
          (le_div_iff ha).mp hdiv
        refine pyRound_le_of_lt cw _ ?_
    
        have hchpos : (0 : ℚ) < (ch : ℚ) := by exact_mod_cast h4
        nlinarith [ha, hchpos]

/-- Closed instance of `C10_width_never_exceeds_container` at 2000x1000
with the default policy. -/
theorem C10_width_never_exceeds_container_witness :
    (calculate_container_fit_dimensions 2000 1000 1280 720 640).1 ≤ 1280 :=
  C10_width_never_exceeds_container 2000 1000 1280 720 640
    (by decide) (by decide) (by decide) (by decide) (by decide)

/-- C5 as stated is false: at 1000x2000 with the default policy the
aspect ratio 0.5 is below the container aspect 16/9 and
`origW = 1000 ≥ minWidth = 640`, yet the planner's height is 1280, not
`containerHeight = 720` — the post-check re-upscaled the
height-constrained candidate `(360, 720)`. -/
theorem C5_counterexample :
    (640 : ℤ) ≤ 1000 ∧ ((1000 : ℚ) / 2000 ≤ (1280 : ℚ) / 720) ∧
      (calculate_container_fit_dimensions 1000 2000 1280 720 640).2 ≠ 720 := by
  refine ⟨by decide, by norm_num, ?_⟩
  rw [plan_spec]
  norm_num [pyRound]

/-- C5 amended: for `origW ≥ minWidth` (positive inputs,
`minWidth ≤ containerWidth`), if the aspect ratio exceeds the container
aspect the result width is `containerWidth` with the width-constrained
label; if the aspect ratio is at most the container aspect AND the
height-constrained candidate width `round(containerHeight*aspect)` is
at least `minWidth` (i.e. the post-check does not fire), the result
height is `containerHeight` with the height-constrained label. -/
theorem C5_amended_container_fit (ow oh cw ch mw : ℤ)
    (h1 : 0 < ow) (h2 : 0 < oh) (h3 : 0 < cw) (h4 : 0 < ch)
    (h5 : mw ≤ cw) (h6 : mw ≤ ow) :
    ((cw : ℚ) / (ch : ℚ) < (ow : ℚ) / (oh : ℚ) →
      (calculate_container_fit_dimensions ow oh cw ch mw).1 = cw ∧
        fit_type ow oh cw ch mw = .width_constrained) ∧
    ((ow : ℚ) / (oh : ℚ) ≤ (cw : ℚ) / (ch : ℚ) →
      mw ≤ pyRound ((ch : ℚ) * ((ow : ℚ) / (oh : ℚ))) →
      (calculate_container_fit_dimensions ow oh cw ch mw).2 = ch ∧
        fit_type ow oh cw ch mw = .height_constrained) := by
  have ha : (0 : ℚ) < (ow : ℚ) / (oh : ℚ) :=
    div_pos (by exact_mod_cast h1) (by exact_mod_cast h2)
  have hchq : (0 : ℚ) < (ch : ℚ) := by exact_mod_cast h4
  have hnup : ¬ ow < mw := not_lt.mpr h6
  constructor
  · intro hlt
    have hcwa : (cw : ℚ) / ((ow : ℚ) / (oh : ℚ)) < (ch : ℚ) := by
      rw [div_lt_iff ha]
      calc (cw : ℚ) = ((cw : ℚ) / (ch : ℚ)) * (ch : ℚ) := by
            field_simp
        _ < ((ow : ℚ) / (oh : ℚ)) * (ch : ℚ) := by
            exact mul_lt_mul_of_pos_right hlt hchq
        _ = (ch : ℚ) * ((ow : ℚ) / (oh : ℚ)) := mul_comm _ _
    have hwch : pyRound ((cw : ℚ) / ((ow : ℚ) / (oh : ℚ))) ≤ ch :=
      pyRound_le_of_lt ch _ (by linarith)
    constructor
    · rw [plan_spec, if_neg hnup, if_pos hwch, if_neg (not_lt.mpr h5)]
    · unfold fit_type
      rw [if_neg hnup, if_pos hlt]
  · intro hle hmin
    have hcwa : (ch : ℚ) ≤ (cw : ℚ) / ((ow : ℚ) / (oh : ℚ)) := by
      rw [le_div_iff ha]
      calc (ch : ℚ) * ((ow : ℚ) / (oh : ℚ)) ≤ (ch : ℚ) * ((cw : ℚ) / (ch : ℚ)) :=
            mul_le_mul_of_nonneg_left hle (le_of_lt hchq)
        _ = (cw : ℚ) := by field_simp
    have hft : fit_type ow oh cw ch mw = .height_constrained := by
      unfold fit_type
      rw [if_neg hnup, if_neg (not_lt.mpr hle)]
    by_cases hwch : pyRound ((cw : ℚ) / ((ow : ℚ) / (oh : ℚ))) ≤ ch
    · -- width branch taken; its height candidate is then exactly ch
      have hge : ch ≤ pyRound ((cw : ℚ) / ((ow : ℚ) / (oh : ℚ))) :=
        le_pyRound_of_lt ch _ (by linarith)
      have heq : pyRound ((cw : ℚ) / ((ow : ℚ) / (oh : ℚ))) = ch :=
        le_antisymm hwch hge
      refine ⟨?_, hft⟩
      rw [plan_spec, if_neg hnup, if_pos hwch, if_neg (not_lt.mpr h5), heq]
    · refine ⟨?_, hft⟩
      rw [plan_spec, if_neg hnup, if_neg hwch, if_neg (not_lt.mpr hmin)]

/-- Closed instance of `C5_amended_container_fit`: both halves at
concrete inputs — 2000x1000 is width-constrained at width 1280, and
1280x720 (aspect equal to the container's) is height-constrained at
height 720. -/
theorem C5_amended_container_fit_witness :
    ((calculate_container_fit_dimensions 2000 1000 1280 720 640).1 = 1280 ∧
      fit_type 2000 1000 1280 720 640 = FitType.width_constrained) ∧
    ((calculate_container_fit_dimensions 1280 720 1280 720 640).2 = 720 ∧
      fit_type 1280 720 1280 720 640 = FitType.height_constrained) := by
  constructor
  · exact (C5_amended_container_fit 2000 1000 1280 720 640
      (by decide) (by decide) (by decide) (by decide) (by decide) (by decide)).1
      (by norm_num)
  · refine (C5_amended_container_fit 1280 720 1280 720 640
      (by decide) (by decide) (by decide) (by decide) (by decide) (by decide)).2
      (by norm_num) ?_
    have h : ((720 : ℤ) : ℚ) * (((1280 : ℤ) : ℚ) / ((720 : ℤ) : ℚ)) = ((1280 : ℤ) : ℚ) := by
      push_cast
      norm_num
    rw [h, pyRound_intCast]
    decide

/-- C6: whenever the container-fit branch's chosen width is below
`minWidth`, the post-check forces `(minWidth, round(minWidth/aspect))`
with no reconciliation against the container box; concretely, for
1000x2000 under the default policy the candidates are width-constrained
`(1280, 2560)` and height-constrained `(360, 720)`, the height-
constrained one is chosen (2560 > 720), and the post-check then forces
`(640, 1280)`. -/
theorem C6_post_check_forces_min_width (ow oh cw ch mw : ℤ)
    (h1 : 0 < ow) (h2 : 0 < oh) (h3 : mw ≤ ow)
    (hchosen : (if pyRound ((cw : ℚ) / ((ow : ℚ) / (oh : ℚ))) ≤ ch then cw
                else pyRound ((ch : ℚ) * ((ow : ℚ) / (oh : ℚ)))) < mw) :
    calculate_container_fit_dimensions ow oh cw ch mw =
        (mw, pyRound ((mw : ℚ) * (oh : ℚ) / (ow : ℚ))) ∧
      pyRound ((1280 : ℚ) / ((1000 : ℚ) / 2000)) = 2560 ∧
      pyRound ((720 : ℚ) * ((1000 : ℚ) / 2000)) = 360 ∧
      calculate_container_fit_dimensions 1000 2000 1280 720 640 = (640, 1280) := by
  refine ⟨?_, by norm_num [pyRound], by norm_num [pyRound], ?_⟩
  · rw [plan_spec, if_neg (not_lt.mpr h3)]
    split
    · next hbr =>
      rw [if_pos hbr] at hchosen
      rw [if_pos hchosen, div_div_eq_mul_div]
    · next hbr =>
      rw [if_neg hbr] at hchosen
      rw [if_pos hchosen, div_div_eq_mul_div]
  · rw [plan_spec]
    norm_num [pyRound]

/-- Closed instance of `C6_post_check_forces_min_width` at the spec's
scenario 1000x2000 with the default policy. -/
theorem C6_post_check_forces_min_width_witness :
    calculate_container_fit_dimensions 1000 2000 1280 720 640 =
        (640, pyRound ((640 : ℚ) * (2000 : ℚ) / (1000 : ℚ))) ∧
      pyRound ((1280 : ℚ) / ((1000 : ℚ) / 2000)) = 2560 ∧
      pyRound ((720 : ℚ) * ((1000 : ℚ) / 2000)) = 360 ∧
      calculate_container_fit_dimensions 1000 2000 1280 720 640 = (640, 1280) :=
  C6_post_check_forces_min_width 1000 2000 1280 720 640
    (by decide) (by decide) (by decide)
    (by norm_num [pyRound])

/-- C7 as stated is false: for 300x300 under the default policy the
upscale branch gives `(640, 640)`, which fits strictly inside the
1280x720 container — so the claim's exception ("upscale branch used and
the upscaled size exceeds the container") does not apply and the claim
asserts a fixed point — yet re-planning `(640, 640)` yields `(720, 720)`. -/
theorem C7_counterexample :
    calculate_container_fit_dimensions 300 300 1280 720 640 = (640, 640) ∧
      (300 : ℤ) < 640 ∧ (640 : ℤ) ≤ 1280 ∧ (640 : ℤ) ≤ 720 ∧
      calculate_container_fit_dimensions 640 640 1280 720 640 = (720, 720) := by
  refine ⟨?_, by decide, by decide, by decide, ?_⟩ <;>
    · rw [plan_spec]
      norm_num [pyRound]

/-- Re-planning a width-constrained output `(1280, W)` (with
`0 < W ≤ 720`) under the default policy reproduces it. -/
lemma replan_width_case (W : ℤ) (hWpos : 0 < W) (hW : W ≤ 720) :
    calculate_container_fit_dimensions 1280 W 1280 720 640 = (1280, W) := by
  have hWq : ((W : ℚ)) ≠ 0 := by
    have : (0 : ℚ) < (W : ℚ) := by exact_mod_cast hWpos
    exact ne_of_gt this
  have hid : ((1280 : ℤ) : ℚ) / (((1280 : ℤ) : ℚ) / (W : ℚ)) = ((W : ℚ)) := by
    rw [div_div_eq_mul_div]
    rw [mul_comm, mul_div_assoc]
    norm_num
  rw [plan_spec, hid, pyRound_intCast,
    if_neg (by decide : ¬ (1280 : ℤ) < 640), if_pos hW,
    if_neg (by decide : ¬ (1280 : ℤ) < 640)]

/-- Re-planning a height-constrained output `(H, 720)` (with
`640 ≤ H ≤ 1279`) under the default policy reproduces it. -/
lemma replan_height_case (H : ℤ) (h640 : 640 ≤ H) (h1279 : H ≤ 1279) :
    calculate_container_fit_dimensions H 720 1280 720 640 = (H, 720) := by
  have hHposq : (0 : ℚ) < (H : ℚ) := by
    have : (0 : ℤ) < H := by omega
    exact_mod_cast this
  have hHcast : ((H : ℚ)) ≤ 1279 := by exact_mod_cast h1279
  have hid : ((1280 : ℤ) : ℚ) / ((H : ℚ) / ((720 : ℤ) : ℚ)) =
      ((1280 : ℤ) : ℚ) * ((720 : ℤ) : ℚ) / (H : ℚ) := div_div_eq_mul_div _ _ _
  have hbig : 721 ≤ pyRound (((1280 : ℤ) : ℚ) * ((720 : ℤ) : ℚ) / (H : ℚ)) := by
    refine le_pyRound_of_lt 721 _ ?_
    rw [lt_div_iff hHposq]
    push_cast
    linarith
  have hid2 : ((720 : ℤ) : ℚ) * ((H : ℚ) / ((720 : ℤ) : ℚ)) = ((H : ℚ)) := by
    rw [mul_div_assoc']
    rw [mul_comm, mul_div_assoc]
    norm_num
  rw [plan_spec, hid, hid2, pyRound_intCast,
    if_neg (not_lt.mpr h640), if_neg (by omega : ¬ pyRound (((1280 : ℤ) : ℚ) *
      ((720 : ℤ) : ℚ) / (H : ℚ)) ≤ 720), if_neg (not_lt.mpr h640)]

/-- Re-planning a post-check output `(640, K)` (with `721 ≤ K`) under
the default policy reproduces it: the height-constrained candidate drops
back below the minimum width and the post-check fires again, undoing the
container fit. -/
lemma replan_postcheck_case (K : ℤ) (h721 : 721 ≤ K) :
    calculate_container_fit_dimensions 640 K 1280 720 640 = (640, K) := by
  have hKposq : (0 : ℚ) < (K : ℚ) := by
    have : (0 : ℤ) < K := by omega
    exact_mod_cast this
  have hKq : ((K : ℚ)) ≠ 0 := ne_of_gt hKposq
  have hKcast : (721 : ℚ) ≤ ((K : ℚ)) := by exact_mod_cast h721
  have hid : ((1280 : ℤ) : ℚ) / (((640 : ℤ) : ℚ) / (K : ℚ)) = ((2 * K : ℤ) : ℚ) := by
    rw [div_div_eq_mul_div]
    push_cast
    rw [div_eq_iff (by norm_num : ((640 : ℚ)) ≠ 0)]
    ring
  have hsmall : pyRound (((720 : ℤ) : ℚ) * (((640 : ℤ) : ℚ) / (K : ℚ))) ≤ 639 := by
    refine pyRound_le_of_lt 639 _ ?_
    rw [mul_div_assoc', div_lt_iff hKposq]
    push_cast
    linarith
  have hid2 : ((640 : ℤ) : ℚ) / (((640 : ℤ) : ℚ) / (K : ℚ)) = ((K : ℚ)) := by
    rw [div_div_eq_mul_div]
    rw [mul_comm, mul_div_assoc]
    norm_num
  rw [plan_spec, hid, hid2, pyRound_intCast, pyRound_intCast,
    if_neg (by decide : ¬ (640 : ℤ) < 640),
    if_neg (by omega : ¬ (2 * K : ℤ) ≤ 720),
    if_pos (by omega : pyRound (((720 : ℤ) : ℚ) * (((640 : ℤ) : ℚ) / (K : ℚ))) < 640)]

/-- C7 amended: with the default policy (container 1280x720, minimum
width 640), the planner is a fixed point on its own output whenever the
first run took the container-fit branch (`origW ≥ minWidth`) and
produced a positive height — including when the post-check fired.  The
non-idempotent cases are upscale-branch outputs, and the documented
direction is inverted: the upscaled output 640x1280 of 300x600, which
EXCEEDS the container, IS a fixed point (the post-check reproduces it),
while upscaled outputs strictly inside the container, such as the
640x640 plan of 300x300, need not be. -/
theorem C7_amended_idempotence (ow oh : ℤ) (h1 : 0 < ow) (h2 : 0 < oh)
    (h3 : 640 ≤ ow)
    (hpos : 0 < (calculate_container_fit_dimensions ow oh 1280 720 640).2) :
    calculate_container_fit_dimensions
        (calculate_container_fit_dimensions ow oh 1280 720 640).1
        (calculate_container_fit_dimensions ow oh 1280 720 640).2 1280 720 640 =
      calculate_container_fit_dimensions ow oh 1280 720 640 ∧
    calculate_container_fit_dimensions 300 600 1280 720 640 = (640, 1280) ∧
    calculate_container_fit_dimensions 640 1280 1280 720 640 = (640, 1280) := by
  refine ⟨?_, by rw [plan_spec]; norm_num [pyRound], by rw [plan_spec]; norm_num [pyRound]⟩
  have ha : (0 : ℚ) < (ow : ℚ) / (oh : ℚ) :=
    div_pos (by exact_mod_cast h1) (by exact_mod_cast h2)
  have hnup : ¬ ow < 640 := not_lt.mpr h3
  by_cases hA : pyRound (((1280 : ℤ) : ℚ) / ((ow : ℚ) / (oh : ℚ))) ≤ 720
  · -- width-constrained case
    have hres : calculate_container_fit_dimensions ow oh 1280 720 640 =
        (1280, pyRound (((1280 : ℤ) : ℚ) / ((ow : ℚ) / (oh : ℚ)))) := by
      rw [plan_spec, if_neg hnup, if_pos hA, if_neg (by decide : ¬ (1280 : ℤ) < 640)]
    rw [hres] at hpos ⊢
    exact replan_width_case _ hpos hA
  · push_neg at hA
    have hA' : 721 ≤ pyRound (((1280 : ℤ) : ℚ) / ((ow : ℚ) / (oh : ℚ))) := hA
    have hAcast : (721 : ℚ) ≤ (pyRound (((1280 : ℤ) : ℚ) / ((ow : ℚ) / (oh : ℚ))) : ℚ) := by
      exact_mod_cast hA'
    have hub := pyRound_cast_le (((1280 : ℤ) : ℚ) / ((ow : ℚ) / (oh : ℚ)))
    have h720a : (1441 : ℚ) / 2 ≤ ((1280 : ℤ) : ℚ) / ((ow : ℚ) / (oh : ℚ)) := by
      linarith
    have haub : (ow : ℚ) / (oh : ℚ) ≤ 2560 / 1441 := by
      have hmul : (1441 : ℚ) / 2 * ((ow : ℚ) / (oh : ℚ)) ≤ ((1280 : ℤ) : ℚ) :=
        (le_div_iff ha).mp h720a
      push_cast at hmul
      linarith
    by_cases hB : pyRound (((720 : ℤ) : ℚ) * ((ow : ℚ) / (oh : ℚ))) < 640
    · -- post-check case
      have hres : calculate_container_fit_dimensions ow oh 1280 720 640 =
          (640, pyRound (((640 : ℤ) : ℚ) / ((ow : ℚ) / (oh : ℚ)))) := by
        rw [plan_spec, if_neg hnup, if_neg (not_le.mpr (by omega)), if_pos hB]
      have hB' : pyRound (((720 : ℤ) : ℚ) * ((ow : ℚ) / (oh : ℚ))) ≤ 639 := by omega
      have hBcast : (pyRound (((720 : ℤ) : ℚ) * ((ow : ℚ) / (oh : ℚ))) : ℚ) ≤ 639 := by
        exact_mod_cast hB'
      have hlb := le_pyRound_cast (((720 : ℤ) : ℚ) * ((ow : ℚ) / (oh : ℚ)))
      have ha1 : (ow : ℚ) / (oh : ℚ) ≤ 1279 / 1440 := by
        push_cast at hlb
        linarith
      have hK : 721 ≤ pyRound (((640 : ℤ) : ℚ) / ((ow : ℚ) / (oh : ℚ))) := by
        refine le_pyRound_of_lt 721 _ ?_
        rw [lt_div_iff ha]
        push_cast
        linarith
      rw [hres]
      exact replan_postcheck_case _ hK
    · -- height-constrained case without post-check
      have hres : calculate_container_fit_dimensions ow oh 1280 720 640 =
          (pyRound (((720 : ℤ) : ℚ) * ((ow : ℚ) / (oh : ℚ))), 720) := by
        rw [plan_spec, if_neg hnup, if_neg (not_le.mpr (by omega)), if_neg hB]
      push_neg at hB
      have hubH := pyRound_cast_le (((720 : ℤ) : ℚ) * ((ow : ℚ) / (oh : ℚ)))
      have hH1279 : pyRound (((720 : ℤ) : ℚ) * ((ow : ℚ) / (oh : ℚ))) ≤ 1279 := by
        have hcast : (pyRound (((720 : ℤ) : ℚ) * ((ow : ℚ) / (oh : ℚ))) : ℚ) < 1280 := by
          push_cast at hubH
          nlinarith
        have : pyRound (((720 : ℤ) : ℚ) * ((ow : ℚ) / (oh : ℚ))) < 1280 := by
          exact_mod_cast hcast
        omega
      rw [hres]
      exact replan_height_case _ hB hH1279

/-- Closed instance of `C7_amended_idempotence` at 1920x1080 (a
width-constrained input whose planned size is 1280x720). -/
theorem C7_amended_idempotence_witness :
    calculate_container_fit_dimensions
        (calculate_container_fit_dimensions 1920 1080 1280 720 640).1
        (calculate_container_fit_dimensions 1920 1080 1280 720 640).2 1280 720 640 =
      calculate_container_fit_dimensions 1920 1080 1280 720 640 ∧
    calculate_container_fit_dimensions 300 600 1280 720 640 = (640, 1280) ∧
    calculate_container_fit_dimensions 640 1280 1280 720 640 = (640, 1280) := by
  refine C7_amended_idempotence 1920 1080 (by decide) (by decide) (by decide) ?_
  rw [plan_spec]
  norm_num [pyRound]
